import Mathlib

/-!
Formal model of the indoor-sim-server indices engine.

The statistics library (`mean`, `std`, `pearson`), the indices pipeline
(`computeIndices` over a current `Measures` record plus a window of
history entries) and the bounded history buffer (`pushHistory`) are
translated from the JavaScript source.  Real numbers stand for the
finite floating-point values flowing through the program; the partial
numeric operations (division, square root) additionally get checked
variants returning `Except`, so that totality of the pipeline — the
error branch of its catch-all handler being dead — is a provable
statement rather than a typing accident.
-/

namespace IndoorSim

/-! ### Statistics library (utils/indices.js) -/

/-- `mean(arr)`: arithmetic mean, `0` for the empty sequence. -/
noncomputable def mean (arr : List ℝ) : ℝ :=
  if arr.length = 0 then 0 else arr.sum / arr.length

/-- Sum of squared deviations from the mean (the numerator of the
population variance accumulated by `std`'s reduce). -/
noncomputable def sqDevSum (arr : List ℝ) : ℝ :=
  (arr.map (fun x => (x - mean arr) * (x - mean arr))).sum

/-- `std(arr)`: population standard deviation, `0` for the empty sequence. -/
noncomputable def std (arr : List ℝ) : ℝ :=
  if arr.length = 0 then 0 else Real.sqrt (sqDevSum arr / arr.length)

/-- The accumulator loop of `pearson`: `∑ (a[i]-mean a)·(b[i]-mean b)`
over indices `0 ≤ i < n`.  Out-of-range indices default to `0`, matching
the in-range array accesses of the source loop. -/
noncomputable def devSumRange (n : ℕ) (a b : List ℝ) : ℝ :=
  ∑ i ∈ Finset.range n, (a.getD i 0 - mean a) * (b.getD i 0 - mean b)

/-- `pearson(a, b)`: Pearson correlation with the source's fallbacks —
`0` when the lengths differ or are below 2, and `0` when the product of
the centred square sums has square root `0` (zero variance). -/
noncomputable def pearson (a b : List ℝ) : ℝ :=
  if a.length ≠ b.length ∨ a.length < 2 then 0
  else
    let num := devSumRange a.length a b
    let denA := devSumRange a.length a a
    let denB := devSumRange a.length b b
    let den := Real.sqrt (denA * denB)
    if den = 0 then 0 else num / den

/-! ### Checked variants

Division and square root are the two operations of the pipeline that can
produce non-finite values in the source language.  The checked variants
fail precisely there; everything else is structurally total. -/

/-- Division, failing on a zero divisor. -/
noncomputable def divE (x y : ℝ) : Except String ℝ :=
  if y = 0 then Except.error "division by zero" else Except.ok (x / y)

/-- Square root, failing on a negative argument. -/
noncomputable def sqrtE (x : ℝ) : Except String ℝ :=
  if x < 0 then Except.error "sqrt of negative" else Except.ok (Real.sqrt x)

/-- Checked `mean`. -/
noncomputable def meanE (arr : List ℝ) : Except String ℝ :=
  if arr.length = 0 then Except.ok 0 else divE arr.sum arr.length

/-- Checked `std`. -/
noncomputable def stdE (arr : List ℝ) : Except String ℝ :=
  if arr.length = 0 then Except.ok 0
  else do
    let m ← meanE arr
    let v ← divE ((arr.map (fun x => (x - m) * (x - m))).sum) arr.length
    sqrtE v

/-- Checked `pearson`. -/
noncomputable def pearsonE (a b : List ℝ) : Except String ℝ :=
  if a.length ≠ b.length ∨ a.length < 2 then Except.ok 0
  else do
    let ma ← meanE a
    let mb ← meanE b
    let num := ∑ i ∈ Finset.range a.length, (a.getD i 0 - ma) * (b.getD i 0 - mb)
    let denA := ∑ i ∈ Finset.range a.length, (a.getD i 0 - ma) * (a.getD i 0 - ma)
    let denB := ∑ i ∈ Finset.range a.length, (b.getD i 0 - mb) * (b.getD i 0 - mb)
    let den ← sqrtE (denA * denB)
    if den = 0 then Except.ok 0 else divE num den

/-! ### Data model of the indices engine -/

/-- One measurement record: the seven sensor fields, each possibly
missing (`null`/`undefined` in the source). -/
structure Measures where
  co2 : Option ℝ
  no2 : Option ℝ
  nh3 : Option ℝ
  co : Option ℝ
  temp : Option ℝ
  rh : Option ℝ
  pres : Option ℝ

/-- One history entry: `{ timestamp, measures }`. -/
structure Entry where
  timestamp : ℤ
  measures : Measures

/-- The record returned by `computeIndices`. -/
structure IndexResult where
  AQL : ℝ
  AQ_penalty : ℝ
  TCI : ℝ
  TCI_penalty_pct : ℝ
  SRI : ℝ
  Volatility_penalty : ℝ
  GEI : ℝ
  corr_co2_no2 : ℝ
  corr_co_nh3 : ℝ
  GAQI : ℝ

/-- The all-zero result returned by the catch-all error handler. -/
def zeroResult : IndexResult := ⟨0, 0, 0, 0, 0, 0, 0, 0, 0, 0⟩

/-- `clamp(v, min, max) = Math.max(min, Math.min(max, v))`. -/
def clamp (v lo hi : ℝ) : ℝ := max lo (min hi v)

/-- `Number(v.toFixed(2))`: rounding to 2 decimal places. -/
noncomputable def round2 (v : ℝ) : ℝ := (round (v * 100) : ℤ) / 100

/-- `Number(v.toFixed(3))`: rounding to 3 decimal places. -/
noncomputable def round3 (v : ℝ) : ℝ := (round (v * 1000) : ℤ) / 1000

/-- `pollutantPenalty(x, good, bad)`: `0` on a missing or sub-threshold
reading, otherwise the linear interpolation scaled to 0–100 and clamped. -/
noncomputable def pollutantPenalty (x : Option ℝ) (good bad : ℝ) : ℝ :=
  match x with
  | Option.none => 0
  | Option.some v => if v ≤ good then 0 else clamp ((v - good) / (bad - good) * 100) 0 100

/-- Checked `pollutantPenalty`. -/
noncomputable def pollutantPenaltyE (x : Option ℝ) (good bad : ℝ) : Except String ℝ :=
  match x with
  | Option.none => pure 0
  | Option.some v =>
      if v ≤ good then pure 0
      else do
        let p ← divE (v - good) (bad - good)
        pure (clamp (p * 100) 0 100)

/-- `l.slice(-n)`: the last `n` elements (all of them when fewer exist). -/
def sliceLast {α : Type} (n : ℕ) (l : List α) : List α := l.drop (l.length - n)

/-- The co2 series of the last-60 volatility window, missing values dropped. -/
def co2SeriesOf (w : List Entry) : List ℝ :=
  (sliceLast 60 w).filterMap (fun s => s.measures.co2)

/-- The temp series of the last-60 volatility window, missing values dropped. -/
def tempSeriesOf (w : List Entry) : List ℝ :=
  (sliceLast 60 w).filterMap (fun s => s.measures.temp)

/-- The rh series of the last-60 volatility window, missing values dropped. -/
def rhSeriesOf (w : List Entry) : List ℝ :=
  (sliceLast 60 w).filterMap (fun s => s.measures.rh)

/-- The co2 series of the long correlation window (last `60·20` entries). -/
def corrCo2Of (w : List Entry) : List ℝ :=
  (sliceLast (60 * 20) w).filterMap (fun s => s.measures.co2)

/-- The no2 series of the long correlation window. -/
def corrNo2Of (w : List Entry) : List ℝ :=
  (sliceLast (60 * 20) w).filterMap (fun s => s.measures.no2)

/-- The co series of the long correlation window. -/
def corrCoOf (w : List Entry) : List ℝ :=
  (sliceLast (60 * 20) w).filterMap (fun s => s.measures.co)

/-- The nh3 series of the long correlation window. -/
def corrNh3Of (w : List Entry) : List ℝ :=
  (sliceLast (60 * 20) w).filterMap (fun s => s.measures.nh3)

/-- `series.length >= 2 ? std(series) : 0`. -/
noncomputable def stdOrZero (l : List ℝ) : ℝ := if 2 ≤ l.length then std l else 0

/-- Checked `stdOrZero`. -/
noncomputable def stdOrZeroE (l : List ℝ) : Except String ℝ :=
  if 2 ≤ l.length then stdE l else pure 0

/-! ### The sub-computations of `computeIndices` -/

/-- `AQ_penalty`: pollutant penalties blended with weights
co2 `0.5`, no2 `0.25`, nh3 `0.15`, co `0.10`. -/
noncomputable def AQ_penaltyOf (s : Measures) : ℝ :=
  pollutantPenalty s.co2 600 2000 * 0.5 + pollutantPenalty s.no2 40 200 * 0.25 +
    pollutantPenalty s.nh3 0.01 0.1 * 0.15 + pollutantPenalty s.co 0.5 10 * 0.10

/-- `AQL = clamp(100 - AQ_penalty, 0, 100)`. -/
noncomputable def AQLOf (s : Measures) : ℝ := clamp (100 - AQ_penaltyOf s) 0 100

/-- `raw_tci`: weighted absolute deviations from the comfort set-points,
missing fields contributing `0`. -/
noncomputable def rawTci (s : Measures) : ℝ :=
  (match s.temp with | Option.none => 0 | Option.some t => |t - 22| * 2.5) +
    (match s.rh with | Option.none => 0 | Option.some r => |r - 50| * 0.5) +
    (match s.pres with | Option.none => 0 | Option.some p => |p - 1013| * 0.02)

/-- `TCI_penalty_pct = clamp(raw_tci / 76 * 100, 0, 100)`. -/
noncomputable def TCI_penaltyOf (s : Measures) : ℝ := clamp (rawTci s / 76 * 100) 0 100

/-- `TCI = clamp(100 - TCI_penalty_pct, 0, 100)`. -/
noncomputable def TCIOf (s : Measures) : ℝ := clamp (100 - TCI_penaltyOf s) 0 100

/-- The volatility term: per-series deviations normalized by the expected
maxima (co2 `500`, temp `3`, rh `10`), weighted `0.4/0.3/0.3`. -/
noncomputable def volTerm (w : List Entry) : ℝ :=
  stdOrZero (co2SeriesOf w) / 500 * 0.4 + stdOrZero (tempSeriesOf w) / 3 * 0.3 +
    stdOrZero (rhSeriesOf w) / 10 * 0.3

/-- `SRI = clamp(100 - term·100, 0, 100)`. -/
noncomputable def SRIOf (w : List Entry) : ℝ := clamp (100 - volTerm w * 100) 0 100

/-- `Volatility_penalty = clamp(term·100, 0, 100)`. -/
noncomputable def VolPenaltyOf (w : List Entry) : ℝ := clamp (volTerm w * 100) 0 100

/-- `corr_co2_no2`: guarded Pearson correlation of the co2/no2 series. -/
noncomputable def corr1Of (w : List Entry) : ℝ :=
  if 2 ≤ (corrCo2Of w).length ∧ (corrNo2Of w).length = (corrCo2Of w).length then
    pearson (corrCo2Of w) (corrNo2Of w)
  else 0

/-- `corr_co_nh3`: guarded Pearson correlation of the co/nh3 series. -/
noncomputable def corr2Of (w : List Entry) : ℝ :=
  if 2 ≤ (corrCoOf w).length ∧ (corrNh3Of w).length = (corrCoOf w).length then
    pearson (corrCoOf w) (corrNh3Of w)
  else 0

/-- `GEI = clamp(100 - |corr_co2_no2|·40 - |corr_co_nh3|·40, 0, 100)`. -/
noncomputable def GEIOf (w : List Entry) : ℝ :=
  clamp (100 - |corr1Of w| * 40 - |corr2Of w| * 40) 0 100

/-- `GAQI`: the 4-term global blend with weights `0.45/0.25/0.2/0.10`. -/
noncomputable def GAQIOf (s : Measures) (w : List Entry) : ℝ :=
  clamp (100 - (0.45 * AQ_penaltyOf s + 0.25 * TCI_penaltyOf s +
    0.2 * (100 - GEIOf w) + 0.10 * VolPenaltyOf w)) 0 100

/-- The pre-rounding result assembled from the sub-computations. -/
noncomputable def computeRaw (s : Measures) (w : List Entry) : IndexResult :=
  ⟨AQLOf s, AQ_penaltyOf s, TCIOf s, TCI_penaltyOf s, SRIOf w, VolPenaltyOf w,
    GEIOf w, corr1Of w, corr2Of w, GAQIOf s w⟩

/-- The rounding applied field-by-field at the return statement. -/
noncomputable def roundResult (r : IndexResult) : IndexResult :=
  ⟨round2 r.AQL, round2 r.AQ_penalty, round2 r.TCI, round2 r.TCI_penalty_pct,
    round2 r.SRI, round2 r.Volatility_penalty, round2 r.GEI,
    round3 r.corr_co2_no2, round3 r.corr_co_nh3, round2 r.GAQI⟩

/-- Checked `corr_co2_no2`. -/
noncomputable def corr1E (w : List Entry) : Except String ℝ :=
  if 2 ≤ (corrCo2Of w).length ∧ (corrNo2Of w).length = (corrCo2Of w).length then
    pearsonE (corrCo2Of w) (corrNo2Of w)
  else pure 0

/-- Checked `corr_co_nh3`. -/
noncomputable def corr2E (w : List Entry) : Except String ℝ :=
  if 2 ≤ (corrCoOf w).length ∧ (corrNh3Of w).length = (corrCoOf w).length then
    pearsonE (corrCoOf w) (corrNh3Of w)
  else pure 0

/-- The body of the inner `try` of the GEI block. -/
noncomputable def corrPairE (w : List Entry) : Except String (ℝ × ℝ) := do
  let c1 ← corr1E w
  let c2 ← corr2E w
  pure (c1, c2)

/-- The inner `try/catch` of the GEI block: both correlations fall back
to `0` if the checked computation fails. -/
noncomputable def corrPair (w : List Entry) : ℝ × ℝ :=
  match corrPairE w with
  | Except.ok p => p
  | Except.error _ => (0, 0)

/-- The checked body of `computeIndices` (the `try` block): every
division and square root of the pipeline goes through the checked
variants, in source order. -/
noncomputable def computeIndicesE (state : Measures) (lastWindow : List Entry) :
    Except String IndexResult := do
  let p_co2 ← pollutantPenaltyE state.co2 600 2000
  let p_no2 ← pollutantPenaltyE state.no2 40 200
  let p_nh3 ← pollutantPenaltyE state.nh3 0.01 0.1
  let p_co ← pollutantPenaltyE state.co 0.5 10
  let aqp := p_co2 * 0.5 + p_no2 * 0.25 + p_nh3 * 0.15 + p_co * 0.10
  let aql := clamp (100 - aqp) 0 100
  let tciFrac ← divE (rawTci state) 76
  let tcip := clamp (tciFrac * 100) 0 100
  let tci := clamp (100 - tcip) 0 100
  let sco2 ← stdOrZeroE (co2SeriesOf lastWindow)
  let stemp ← stdOrZeroE (tempSeriesOf lastWindow)
  let srh ← stdOrZeroE (rhSeriesOf lastWindow)
  let t1 ← divE sco2 500
  let t2 ← divE stemp 3
  let t3 ← divE srh 10
  let term := t1 * 0.4 + t2 * 0.3 + t3 * 0.3
  let sri := clamp (100 - term * 100) 0 100
  let volp := clamp (term * 100) 0 100
  let cs := corrPair lastWindow
  let gei := clamp (100 - |cs.1| * 40 - |cs.2| * 40) 0 100
  let gaqi := clamp (100 - (0.45 * aqp + 0.25 * tcip + 0.2 * (100 - gei) + 0.10 * volp)) 0 100
  pure ⟨round2 aql, round2 aqp, round2 tci, round2 tcip, round2 sri, round2 volp,
    round2 gei, round3 cs.1, round3 cs.2, round2 gaqi⟩

/-- `computeIndices(state, lastWindow)`: the checked body wrapped in the
catch-all handler returning the all-zero result. -/
noncomputable def computeIndices (state : Measures) (lastWindow : List Entry) : IndexResult :=
  match computeIndicesE state lastWindow with
  | Except.ok r => r
  | Except.error _ => zeroResult

/-! ### History buffer (server.js) -/

/-- `pushHistory`: append the entry, then drop the front when the length
exceeds the configured capacity. -/
def pushHistory {α : Type} (cap : ℕ) (h : List α) (e : α) : List α :=
  let h2 := h ++ [e]
  if cap < h2.length then h2.tail else h2

/-- The 30-minute capacity configured for the buffer (`HISTORY_SECONDS`). -/
def HISTORY_SECONDS : ℕ := 60 * 30

/-! ### The checked statistics agree with the pure ones -/

theorem ok_bind {ε α β : Type} (a : α) (f : α → Except ε β) :
    (Except.ok a >>= f : Except ε β) = f a := rfl

theorem pure_eq_ok {ε α : Type} (a : α) : (pure a : Except ε α) = Except.ok a := rfl

theorem divE_eq (x y : ℝ) (h : y ≠ 0) : divE x y = Except.ok (x / y) := if_neg h

theorem sqrtE_eq (x : ℝ) (h : 0 ≤ x) : sqrtE x = Except.ok (Real.sqrt x) :=
  if_neg (not_lt.mpr h)

theorem meanE_eq (arr : List ℝ) : meanE arr = Except.ok (mean arr) := by
  unfold meanE mean
  by_cases h : arr.length = 0
  · rw [if_pos h, if_pos h]
  · rw [if_neg h, if_neg h, divE_eq]
    exact Nat.cast_ne_zero.mpr h

theorem stdE_eq (arr : List ℝ) : stdE arr = Except.ok (std arr) := by
  unfold stdE std
  by_cases h : arr.length = 0
  · rw [if_pos h, if_pos h]
  · rw [if_neg h, if_neg h, meanE_eq, ok_bind, divE_eq _ _ (Nat.cast_ne_zero.mpr h),
      ok_bind, sqrtE_eq]
    · rfl
    · apply div_nonneg _ (Nat.cast_nonneg _)
      exact List.sum_nonneg (by
        intro y hy
        obtain ⟨x, _, rfl⟩ := List.mem_map.mp hy
        exact mul_self_nonneg _)

theorem devSumRange_self_nonneg (n : ℕ) (a : List ℝ) : 0 ≤ devSumRange n a a :=
  Finset.sum_nonneg fun _ _ => mul_self_nonneg _

theorem pearsonE_eq (a b : List ℝ) : pearsonE a b = Except.ok (pearson a b) := by
  unfold pearsonE pearson devSumRange
  by_cases h : a.length ≠ b.length ∨ a.length < 2
  · rw [if_pos h, if_pos h]
  · rw [if_neg h, if_neg h, meanE_eq, ok_bind, meanE_eq, ok_bind]
    dsimp only
    rw [sqrtE_eq _ (mul_nonneg (Finset.sum_nonneg fun i _ => mul_self_nonneg _)
        (Finset.sum_nonneg fun i _ => mul_self_nonneg _)), ok_bind]
    by_cases hden : Real.sqrt
        ((∑ i ∈ Finset.range a.length, (a.getD i 0 - mean a) * (a.getD i 0 - mean a)) *
          ∑ i ∈ Finset.range a.length, (b.getD i 0 - mean b) * (b.getD i 0 - mean b)) = 0
    · rw [if_pos hden, if_pos hden]
    · rw [if_neg hden, if_neg hden, divE_eq _ _ hden]

/-! ### The checked pipeline agrees with the pure one -/

theorem pollutantPenaltyE_eq (x : Option ℝ) (good bad : ℝ) (h : bad - good ≠ 0) :
    pollutantPenaltyE x good bad = Except.ok (pollutantPenalty x good bad) := by
  unfold pollutantPenaltyE pollutantPenalty
  cases x with
  | none => rfl
  | some v =>
      dsimp only
      by_cases hv : v ≤ good
      · rw [if_pos hv, if_pos hv, pure_eq_ok]
      · rw [if_neg hv, if_neg hv, divE_eq _ _ h, ok_bind, pure_eq_ok]

theorem pollutantPenaltyE_co2 (x : Option ℝ) :
    pollutantPenaltyE x 600 2000 = Except.ok (pollutantPenalty x 600 2000) :=
  pollutantPenaltyE_eq x 600 2000 (by norm_num)

theorem pollutantPenaltyE_no2 (x : Option ℝ) :
    pollutantPenaltyE x 40 200 = Except.ok (pollutantPenalty x 40 200) :=
  pollutantPenaltyE_eq x 40 200 (by norm_num)

theorem pollutantPenaltyE_nh3 (x : Option ℝ) :
    pollutantPenaltyE x 0.01 0.1 = Except.ok (pollutantPenalty x 0.01 0.1) :=
  pollutantPenaltyE_eq x 0.01 0.1 (by norm_num)

theorem pollutantPenaltyE_co (x : Option ℝ) :
    pollutantPenaltyE x 0.5 10 = Except.ok (pollutantPenalty x 0.5 10) :=
  pollutantPenaltyE_eq x 0.5 10 (by norm_num)

theorem divE_76 (x : ℝ) : divE x 76 = Except.ok (x / 76) := divE_eq x 76 (by norm_num)

theorem divE_500 (x : ℝ) : divE x 500 = Except.ok (x / 500) := divE_eq x 500 (by norm_num)

theorem divE_3 (x : ℝ) : divE x 3 = Except.ok (x / 3) := divE_eq x 3 (by norm_num)

theorem divE_10 (x : ℝ) : divE x 10 = Except.ok (x / 10) := divE_eq x 10 (by norm_num)

theorem stdOrZeroE_eq (l : List ℝ) : stdOrZeroE l = Except.ok (stdOrZero l) := by
  unfold stdOrZeroE stdOrZero
  by_cases h : 2 ≤ l.length
  · rw [if_pos h, if_pos h, stdE_eq]
  · rw [if_neg h, if_neg h, pure_eq_ok]

theorem corr1E_eq (w : List Entry) : corr1E w = Except.ok (corr1Of w) := by
  unfold corr1E corr1Of
  by_cases h : 2 ≤ (corrCo2Of w).length ∧ (corrNo2Of w).length = (corrCo2Of w).length
  · rw [if_pos h, if_pos h, pearsonE_eq]
  · rw [if_neg h, if_neg h, pure_eq_ok]

theorem corr2E_eq (w : List Entry) : corr2E w = Except.ok (corr2Of w) := by
  unfold corr2E corr2Of
  by_cases h : 2 ≤ (corrCoOf w).length ∧ (corrNh3Of w).length = (corrCoOf w).length
  · rw [if_pos h, if_pos h, pearsonE_eq]
  · rw [if_neg h, if_neg h, pure_eq_ok]

theorem corrPair_eq (w : List Entry) : corrPair w = (corr1Of w, corr2Of w) := by
  unfold corrPair corrPairE
  rw [corr1E_eq, ok_bind, corr2E_eq, ok_bind, pure_eq_ok]

set_option maxRecDepth 4096 in
theorem computeIndicesE_ok (s : Measures) (w : List Entry) :
    computeIndicesE s w = Except.ok (roundResult (computeRaw s w)) := by
  simp only [computeIndicesE, pollutantPenaltyE_co2, pollutantPenaltyE_no2,
    pollutantPenaltyE_nh3, pollutantPenaltyE_co, divE_76, divE_500, divE_3, divE_10,
    stdOrZeroE_eq, corrPair_eq, ok_bind, pure_eq_ok]
  simp only [roundResult, computeRaw, AQLOf, AQ_penaltyOf, TCIOf, TCI_penaltyOf, SRIOf,
    VolPenaltyOf, GEIOf, GAQIOf, volTerm]

theorem computeIndices_eq (s : Measures) (w : List Entry) :
    computeIndices s w = roundResult (computeRaw s w) := by
  unfold computeIndices
  rw [computeIndicesE_ok]

/-! ### Clamping, rounding and sign facts -/

theorem clamp_nonneg (v : ℝ) : 0 ≤ clamp v 0 100 := le_max_left 0 _

theorem clamp_le_100 (v : ℝ) : clamp v 0 100 ≤ 100 :=
  max_le (by norm_num) (min_le_left _ _)

theorem le_clamp_of_le (c v : ℝ) (h1 : c ≤ v) (h2 : c ≤ 100) : c ≤ clamp v 0 100 :=
  le_trans (le_min h2 h1) (le_max_right 0 _)

theorem clamp_complement (t : ℝ) (ht : 0 ≤ t) :
    clamp (100 - t) 0 100 = 100 - clamp t 0 100 := by
  unfold clamp
  rcases le_total t 100 with h | h
  · rw [min_eq_right (by linarith : 100 - t ≤ 100), max_eq_right (by linarith : (0:ℝ) ≤ 100 - t),
      min_eq_right h, max_eq_right ht]
  · rw [min_eq_right (by linarith : 100 - t ≤ 100), max_eq_left (by linarith : 100 - t ≤ 0),
      min_eq_left h, max_eq_right (by norm_num : (0:ℝ) ≤ 100)]
    norm_num

theorem intCast_le_round2 (m : ℤ) (x : ℝ) (h : (m : ℝ) ≤ x) : (m : ℝ) ≤ round2 x := by
  unfold round2
  have h1 : m * 100 ≤ round (x * 100) := by
    rw [round_eq]
    refine Int.le_floor.mpr ?_
    push_cast
    linarith
  calc (m : ℝ) = ((m * 100 : ℤ) : ℝ) / 100 := by push_cast; ring
    _ ≤ ((round (x * 100) : ℤ) : ℝ) / 100 :=
        (div_le_div_iff_of_pos_right (by norm_num : (0:ℝ) < 100)).mpr (by exact_mod_cast h1)

theorem round2_le_intCast (m : ℤ) (x : ℝ) (h : x ≤ (m : ℝ)) : round2 x ≤ (m : ℝ) := by
  unfold round2
  have h1 : round (x * 100) ≤ m * 100 := by
    rw [round_eq]
    refine Int.lt_add_one_iff.mp ?_
    refine Int.floor_lt.mpr ?_
    push_cast
    linarith
  calc ((round (x * 100) : ℤ) : ℝ) / 100 ≤ ((m * 100 : ℤ) : ℝ) / 100 :=
        (div_le_div_iff_of_pos_right (by norm_num : (0:ℝ) < 100)).mpr (by exact_mod_cast h1)
    _ = (m : ℝ) := by push_cast; ring

theorem round2_nonneg (x : ℝ) (h : 0 ≤ x) : 0 ≤ round2 x := by
  have := intCast_le_round2 0 x (by exact_mod_cast h)
  exact_mod_cast this

theorem round2_le_100 (x : ℝ) (h : x ≤ 100) : round2 x ≤ 100 := by
  have := round2_le_intCast 100 x (by exact_mod_cast h)
  exact_mod_cast this

theorem std_nonneg (arr : List ℝ) : 0 ≤ std arr := by
  unfold std
  split
  · exact le_refl 0
  · exact Real.sqrt_nonneg _

theorem stdOrZero_nonneg (l : List ℝ) : 0 ≤ stdOrZero l := by
  unfold stdOrZero
  split
  · exact std_nonneg l
  · exact le_refl 0

theorem volTerm_nonneg (w : List Entry) : 0 ≤ volTerm w := by
  unfold volTerm
  have h1 := stdOrZero_nonneg (co2SeriesOf w)
  have h2 := stdOrZero_nonneg (tempSeriesOf w)
  have h3 := stdOrZero_nonneg (rhSeriesOf w)
  have hc1 : 0 ≤ stdOrZero (co2SeriesOf w) / 500 * 0.4 :=
    mul_nonneg (div_nonneg h1 (by norm_num)) (by norm_num)
  have hc2 : 0 ≤ stdOrZero (tempSeriesOf w) / 3 * 0.3 :=
    mul_nonneg (div_nonneg h2 (by norm_num)) (by norm_num)
  have hc3 : 0 ≤ stdOrZero (rhSeriesOf w) / 10 * 0.3 :=
    mul_nonneg (div_nonneg h3 (by norm_num)) (by norm_num)
  linarith

/-! ### Pearson is bounded by 1 in absolute value -/

theorem pearson_abs_le (a b : List ℝ) : |pearson a b| ≤ 1 := by
  unfold pearson
  by_cases hg : a.length ≠ b.length ∨ a.length < 2
  · rw [if_pos hg]; norm_num
  · rw [if_neg hg]
    dsimp only
    by_cases hden : Real.sqrt (devSumRange a.length a a * devSumRange a.length b b) = 0
    · rw [if_pos hden]; norm_num
    · rw [if_neg hden]
      have hge : 0 ≤ Real.sqrt (devSumRange a.length a a * devSumRange a.length b b) :=
        Real.sqrt_nonneg _
      have hpos : 0 < Real.sqrt (devSumRange a.length a a * devSumRange a.length b b) :=
        lt_of_le_of_ne hge (Ne.symm hden)
      have hcs : devSumRange a.length a b ^ 2 ≤
          devSumRange a.length a a * devSumRange a.length b b := by
        have hA : devSumRange a.length a a =
            ∑ i ∈ Finset.range a.length, (a.getD i 0 - mean a) ^ 2 :=
          Finset.sum_congr rfl fun i _ => (pow_two _).symm
        have hB : devSumRange a.length b b =
            ∑ i ∈ Finset.range a.length, (b.getD i 0 - mean b) ^ 2 :=
          Finset.sum_congr rfl fun i _ => (pow_two _).symm
        rw [hA, hB]
        exact Finset.sum_mul_sq_le_sq_mul_sq (Finset.range a.length)
          (fun i => a.getD i 0 - mean a) (fun i => b.getD i 0 - mean b)
      have habs : |devSumRange a.length a b| ≤
          Real.sqrt (devSumRange a.length a a * devSumRange a.length b b) := by
        rw [← Real.sqrt_sq_eq_abs]
        exact Real.sqrt_le_sqrt hcs
      rw [abs_div, abs_of_pos hpos]
      exact div_le_one_of_le₀ habs (le_of_lt hpos)

theorem corr1Of_abs_le (w : List Entry) : |corr1Of w| ≤ 1 := by
  unfold corr1Of
  split
  · exact pearson_abs_le _ _
  · norm_num

theorem corr2Of_abs_le (w : List Entry) : |corr2Of w| ≤ 1 := by
  unfold corr2Of
  split
  · exact pearson_abs_le _ _
  · norm_num

/-! ### History buffer lemmas -/

theorem pushHistory_length_le {α : Type} (cap : ℕ) (h : List α) (e : α)
    (hh : h.length ≤ cap) : (pushHistory cap h e).length ≤ cap := by
  unfold pushHistory
  dsimp only
  by_cases hc : cap < (h ++ [e]).length
  · rw [if_pos hc, List.length_tail, List.length_append, List.length_singleton]
    simp only [List.length_append, List.length_singleton] at hc
    omega
  · rw [if_neg hc]
    omega

theorem foldl_pushHistory_length {α : Type} (cap : ℕ) (es : List α) (init : List α)
    (hi : init.length ≤ cap) : (es.foldl (pushHistory cap) init).length ≤ cap := by
  induction es generalizing init with
  | nil => exact hi
  | cons e es ih => exact ih _ (pushHistory_length_le cap init e hi)

theorem foldl_pushHistory_append {α : Type} (cap : ℕ) (es : List α) (acc : List α)
    (h : acc.length + es.length ≤ cap) : es.foldl (pushHistory cap) acc = acc ++ es := by
  induction es generalizing acc with
  | nil => simp
  | cons e es ih =>
      rw [List.foldl_cons]
      have hstep : pushHistory cap acc e = acc ++ [e] := by
        unfold pushHistory
        dsimp only
        rw [if_neg]
        simp only [List.length_append, List.length_singleton, List.length_cons,
          List.length_nil] at h ⊢
        omega
      rw [hstep, ih (acc ++ [e]) (by
        simp only [List.length_append, List.length_singleton, List.length_cons,
          List.length_nil] at h ⊢
        omega)]
      simp

theorem foldl_pushHistory_overflow {α : Type} (cap : ℕ) (es : List α)
    (h : es.length = cap + 1) : es.foldl (pushHistory cap) [] = es.tail := by
  have hne : es ≠ [] := by
    intro hnil
    rw [hnil] at h
    simp at h
  have hsplit : es.dropLast ++ [es.getLast hne] = es := List.dropLast_append_getLast hne
  have hdl : es.dropLast.length = cap := by
    rw [List.length_dropLast, h]
    omega
  calc es.foldl (pushHistory cap) []
      = (es.dropLast ++ [es.getLast hne]).foldl (pushHistory cap) [] := by rw [hsplit]
    _ = pushHistory cap (es.dropLast.foldl (pushHistory cap) []) (es.getLast hne) := by
        rw [List.foldl_append, List.foldl_cons, List.foldl_nil]
    _ = pushHistory cap es.dropLast (es.getLast hne) := by
        rw [foldl_pushHistory_append cap es.dropLast [] (by simp [hdl])]
        simp
    _ = es.tail := by
        unfold pushHistory
        dsimp only
        rw [if_pos (by
          simp only [List.length_append, List.length_singleton, hdl]
          omega)]
        rw [hsplit]

/-! ### Claims -/

/-- C1: `computeIndices` is total.  For every state (each field possibly
missing) and every history window (possibly empty) the checked pipeline
`computeIndicesE` — in which every division and square root of the source is
guarded — returns `Except.ok`, never an error, and `computeIndices` returns
exactly that ok value: a fully-populated `IndexResult` whose ten fields are
well-defined real numbers.  The all-zero fallback of the catch handler stands
ready for an internal error but is never exercised. -/
theorem computeIndices_total (s : Measures) (w : List Entry) :
    computeIndicesE s w = Except.ok (computeIndices s w) := by
  rw [computeIndices_eq, computeIndicesE_ok]

/-- C2: for every state (arbitrary finite or missing fields) and every window
(including the empty one), each of the five primary outputs `AQL`, `TCI`,
`SRI`, `GEI`, `GAQI` of `computeIndices` lies within `[0, 100]`. -/
theorem computeIndices_outputs_in_range (s : Measures) (w : List Entry) :
    (0 ≤ (computeIndices s w).AQL ∧ (computeIndices s w).AQL ≤ 100) ∧
    (0 ≤ (computeIndices s w).TCI ∧ (computeIndices s w).TCI ≤ 100) ∧
    (0 ≤ (computeIndices s w).SRI ∧ (computeIndices s w).SRI ≤ 100) ∧
    (0 ≤ (computeIndices s w).GEI ∧ (computeIndices s w).GEI ≤ 100) ∧
    (0 ≤ (computeIndices s w).GAQI ∧ (computeIndices s w).GAQI ≤ 100) := by
  rw [computeIndices_eq]
  simp only [roundResult, computeRaw]
  exact ⟨⟨round2_nonneg _ (clamp_nonneg _), round2_le_100 _ (clamp_le_100 _)⟩,
    ⟨round2_nonneg _ (clamp_nonneg _), round2_le_100 _ (clamp_le_100 _)⟩,
    ⟨round2_nonneg _ (clamp_nonneg _), round2_le_100 _ (clamp_le_100 _)⟩,
    ⟨round2_nonneg _ (clamp_nonneg _), round2_le_100 _ (clamp_le_100 _)⟩,
    ⟨round2_nonneg _ (clamp_nonneg _), round2_le_100 _ (clamp_le_100 _)⟩⟩

/-- C3: for each pollutant with its good/bad thresholds (co2 600/2000,
no2 40/200, nh3 0.01/0.1, co 0.5/10), the pollutant penalty is `0` on a
missing reading or a reading `≤ good`, equals `100·(x−g)/(b−g)` strictly
between the thresholds, and saturates at exactly `100` from `bad` upward. -/
theorem pollutantPenalty_piecewise (good bad x : ℝ)
    (h : good = 600 ∧ bad = 2000 ∨ good = 40 ∧ bad = 200 ∨
      good = 0.01 ∧ bad = 0.1 ∨ good = 0.5 ∧ bad = 10) :
    pollutantPenalty Option.none good bad = 0 ∧
    (x ≤ good → pollutantPenalty (Option.some x) good bad = 0) ∧
    (good < x → x < bad →
      pollutantPenalty (Option.some x) good bad = 100 * (x - good) / (bad - good)) ∧
    (bad ≤ x → pollutantPenalty (Option.some x) good bad = 100) := by
  have hgb : good < bad := by
    rcases h with ⟨h1, h2⟩ | ⟨h1, h2⟩ | ⟨h1, h2⟩ | ⟨h1, h2⟩ <;> subst h1 <;> subst h2 <;>
      norm_num
  have hd : 0 < bad - good := by linarith
  refine ⟨rfl, fun hx => ?_, fun h1 h2 => ?_, fun h1 => ?_⟩
  · show (if x ≤ good then (0:ℝ) else clamp ((x - good) / (bad - good) * 100) 0 100) = 0
    rw [if_pos hx]
  · show (if x ≤ good then (0:ℝ) else clamp ((x - good) / (bad - good) * 100) 0 100) =
      100 * (x - good) / (bad - good)
    rw [if_neg (not_le.mpr h1)]
    unfold clamp
    have hub : (x - good) / (bad - good) * 100 ≤ 100 := by
      rw [div_mul_eq_mul_div, div_le_iff₀ hd]
      linarith
    have hlb : 0 ≤ (x - good) / (bad - good) * 100 :=
      mul_nonneg (div_nonneg (by linarith) (le_of_lt hd)) (by norm_num)
    rw [min_eq_right hub, max_eq_right hlb]
    ring
  · show (if x ≤ good then (0:ℝ) else clamp ((x - good) / (bad - good) * 100) 0 100) = 100
    rw [if_neg (not_le.mpr (lt_of_lt_of_le hgb h1))]
    unfold clamp
    have hq : (1:ℝ) ≤ (x - good) / (bad - good) := (one_le_div hd).mpr (by linarith)
    have h100 : (100:ℝ) ≤ (x - good) / (bad - good) * 100 := by linarith
    rw [min_eq_left h100, max_eq_right (by norm_num : (0:ℝ) ≤ 100)]

/-- Witness for C3 at the co2 thresholds: a missing reading, a reading below
600, the strictly interior reading 1300 and the saturated reading 2500. -/
theorem pollutantPenalty_piecewise_witness :
    pollutantPenalty Option.none 600 2000 = 0 ∧
    pollutantPenalty (Option.some 500) 600 2000 = 0 ∧
    pollutantPenalty (Option.some 1300) 600 2000 = 100 * (1300 - 600) / (2000 - 600) ∧
    pollutantPenalty (Option.some 2500) 600 2000 = 100 :=
  ⟨(pollutantPenalty_piecewise 600 2000 500 (Or.inl ⟨rfl, rfl⟩)).1,
   (pollutantPenalty_piecewise 600 2000 500 (Or.inl ⟨rfl, rfl⟩)).2.1 (by norm_num),
   (pollutantPenalty_piecewise 600 2000 1300 (Or.inl ⟨rfl, rfl⟩)).2.2.1 (by norm_num)
     (by norm_num),
   (pollutantPenalty_piecewise 600 2000 2500 (Or.inl ⟨rfl, rfl⟩)).2.2.2 (by norm_num)⟩

/-- C4: the pre-rounding global composite of every `computeIndices` call is
the 4-term blend
`GAQI = clamp(100 − (0.45·AQ_penalty + 0.25·TCI_penalty_pct + 0.2·(100 − GEI)
+ 0.10·Volatility_penalty), 0, 100)` over the sub-results of the same call
(not the historical 3-term variant). -/
theorem computeRaw_GAQI_blend (s : Measures) (w : List Entry) :
    (computeRaw s w).GAQI = clamp (100 - (0.45 * (computeRaw s w).AQ_penalty +
      0.25 * (computeRaw s w).TCI_penalty_pct + 0.2 * (100 - (computeRaw s w).GEI) +
      0.10 * (computeRaw s w).Volatility_penalty)) 0 100 := rfl

/-- C5: the degenerate fallbacks of the statistics library: `mean([]) = 0`,
`std([]) = 0`, and `pearson` returns `0` (never fails, never a non-number)
whenever the lengths differ, either list is empty, the common length is
below 2, or either centred square sum (variance) is zero. -/
theorem stats_degenerate_zero :
    mean [] = 0 ∧ std [] = 0 ∧
    (∀ a b : List ℝ,
      a.length ≠ b.length ∨ a = [] ∨ b = [] ∨ a.length < 2 ∨
        devSumRange a.length a a = 0 ∨ devSumRange a.length b b = 0 →
      pearson a b = 0) := by
  refine ⟨rfl, rfl, fun a b h => ?_⟩
  unfold pearson
  by_cases hg : a.length ≠ b.length ∨ a.length < 2
  · rw [if_pos hg]
  · rw [if_neg hg]
    dsimp only
    push_neg at hg
    obtain ⟨hlen, h2⟩ := hg
    rcases h with h | h | h | h | h | h
    · exact absurd hlen h
    · subst h; simp at h2
    · subst h; rw [List.length_nil] at hlen; omega
    · omega
    · rw [h, zero_mul, Real.sqrt_zero, if_pos rfl]
    · rw [h, mul_zero, Real.sqrt_zero, if_pos rfl]

/-- Witness for C5: two sequences of different lengths correlate to `0`. -/
theorem stats_degenerate_zero_witness : pearson [1, 2] [1, 2, 3] = 0 :=
  stats_degenerate_zero.2.2 [1, 2] [1, 2, 3] (Or.inl (by norm_num))

/-- C6: the buffer built by folding `pushHistory` never exceeds the
configured capacity, and when `cap + 1` distinct entries are appended (the
first being `e0`, the last `en`), the oldest entry `e0` has been evicted
while the newest `en` is present. -/
theorem pushHistory_capacity_eviction {α : Type} (cap : ℕ) (es mid : List α) (e0 en : α) :
    (es.foldl (pushHistory cap) []).length ≤ cap ∧
    (es = e0 :: (mid ++ [en]) → es.length = cap + 1 → es.Nodup →
      e0 ∉ es.foldl (pushHistory cap) [] ∧ en ∈ es.foldl (pushHistory cap) []) := by
  constructor
  · exact foldl_pushHistory_length cap es [] (by simp)
  · intro hes hlen hnd
    rw [foldl_pushHistory_overflow cap es hlen]
    subst hes
    rw [List.tail_cons]
    constructor
    · exact (List.nodup_cons.mp hnd).1
    · exact List.mem_append_right mid (List.mem_singleton_self en)

/-- Witness for C6: capacity 2, three distinct appends; the result holds the
last two entries only. -/
theorem pushHistory_capacity_eviction_witness :
    (([10, 20, 30] : List ℕ).foldl (pushHistory 2) []).length ≤ 2 ∧
    (10 ∉ ([10, 20, 30] : List ℕ).foldl (pushHistory 2) [] ∧
      30 ∈ ([10, 20, 30] : List ℕ).foldl (pushHistory 2) []) :=
  ⟨(pushHistory_capacity_eviction 2 [10, 20, 30] [20] 10 30).1,
   (pushHistory_capacity_eviction 2 [10, 20, 30] [20] 10 30).2 rfl rfl (by decide)⟩

/-- C7: before rounding, `SRI = 100 − Volatility_penalty`, and
`Volatility_penalty = clamp(term·100, 0, 100)` for the weighted volatility
term `volTerm` (per-series population standard deviations normalized by
co2 500 / temp 3 / rh 10, weighted 0.4/0.3/0.3). -/
theorem computeRaw_SRI_complement (s : Measures) (w : List Entry) :
    (computeRaw s w).SRI = 100 - (computeRaw s w).Volatility_penalty ∧
    (computeRaw s w).Volatility_penalty = clamp (volTerm w * 100) 0 100 := by
  constructor
  · show SRIOf w = 100 - VolPenaltyOf w
    unfold SRIOf VolPenaltyOf
    exact clamp_complement (volTerm w * 100) (mul_nonneg (volTerm_nonneg w) (by norm_num))
  · rfl

/-- C9: every value returned by `pearson` lies within `[−1, 1]` — by the
Cauchy-Schwarz inequality in the non-degenerate branch and by the zero
fallbacks everywhere else. -/
theorem pearson_within_unit_interval (a b : List ℝ) :
    -1 ≤ pearson a b ∧ pearson a b ≤ 1 := abs_le.mp (pearson_abs_le a b)

/-- C10: for every state and window, the returned `GEI` is at least 20:
each correlation magnitude is at most 1, so the correlation penalty
`40·|corr_co2_no2| + 40·|corr_co_nh3|` never exceeds 80 and the clamp's
lower bound 0 is never reached. -/
theorem GEI_ge_twenty (s : Measures) (w : List Entry) : 20 ≤ (computeIndices s w).GEI := by
  rw [computeIndices_eq]
  have hc1 := corr1Of_abs_le w
  have hc2 := corr2Of_abs_le w
  have h1 : 20 ≤ GEIOf w := by
    unfold GEIOf
    exact le_clamp_of_le 20 _ (by linarith) (by norm_num)
  have h2 : ((20:ℤ):ℝ) ≤ round2 (GEIOf w) :=
    intCast_le_round2 20 (GEIOf w) (by exact_mod_cast h1)
  show (20:ℝ) ≤ round2 (GEIOf w)
  exact_mod_cast h2

/-- Counterexample to C8 as stated: the constant sequence `[1, 1]` has
length 2, yet `pearson([1,1], [1,1])` is `0`, not `1` — a zero-variance
series trips the `den = 0` fallback before the ratio is ever formed. -/
theorem pearson_self_constant_cex :
    2 ≤ ([(1:ℝ), 1]).length ∧ pearson [(1:ℝ), 1] [1, 1] = 0 ∧
      pearson [(1:ℝ), 1] [1, 1] ≠ 1 := by
  refine ⟨by norm_num, ?_, ?_⟩
  · unfold pearson devSumRange mean
    norm_num [Finset.sum_range_succ, Finset.sum_range_zero, List.getD_cons_zero,
      List.getD_cons_succ, Real.sqrt_zero]
  · unfold pearson devSumRange mean
    norm_num [Finset.sum_range_succ, Finset.sum_range_zero, List.getD_cons_zero,
      List.getD_cons_succ, Real.sqrt_zero]

/-- C8 (amended): for every sequence of length at least 2 with nonzero
centred square sum (i.e. not constant), `pearson(a, a) = 1`; and for every
pair of sequences of equal length at least 2 that are exact negatives of
each other after mean-centring, with nonzero centred square sum,
`pearson(a, b) = −1`.  (The non-constancy proviso is forced by the
counterexample: a zero-variance series returns `0`.) -/
theorem pearson_self_one_and_neg_one :
    (∀ a : List ℝ, 2 ≤ a.length → devSumRange a.length a a ≠ 0 → pearson a a = 1) ∧
    (∀ a b : List ℝ, a.length = b.length → 2 ≤ a.length →
      (∀ i ∈ Finset.range a.length, b.getD i 0 - mean b = -(a.getD i 0 - mean a)) →
      devSumRange a.length a a ≠ 0 → pearson a b = -1) := by
  constructor
  · intro a h2 hvar
    unfold pearson
    rw [if_neg (by push_neg; exact ⟨rfl, by omega⟩)]
    dsimp only
    rw [Real.sqrt_mul_self (devSumRange_self_nonneg _ _), if_neg hvar]
    exact div_self hvar
  · intro a b hlen h2 hneg hvar
    unfold pearson
    rw [if_neg (by push_neg; exact ⟨hlen, by omega⟩)]
    dsimp only
    have hnum : devSumRange a.length a b = -devSumRange a.length a a := by
      unfold devSumRange
      rw [← Finset.sum_neg_distrib]
      refine Finset.sum_congr rfl fun i hi => ?_
      rw [hneg i hi]
      ring
    have hdB : devSumRange a.length b b = devSumRange a.length a a := by
      unfold devSumRange
      refine Finset.sum_congr rfl fun i hi => ?_
      rw [hneg i hi]
      ring
    rw [hnum, hdB, Real.sqrt_mul_self (devSumRange_self_nonneg _ _), if_neg hvar,
      neg_div, div_self hvar]

/-- Witness for the amended C8: the non-constant series `[0, 1]` correlates
perfectly with itself, and with its centred negative `[1, 0]` it correlates
at exactly `−1`. -/
theorem pearson_self_one_and_neg_one_witness :
    pearson [(0:ℝ), 1] [0, 1] = 1 ∧ pearson [(0:ℝ), 1] [1, 0] = -1 := by
  constructor
  · refine pearson_self_one_and_neg_one.1 [0, 1] (by norm_num) ?_
    unfold devSumRange mean
    norm_num [Finset.sum_range_succ, Finset.sum_range_zero, List.getD_cons_zero,
      List.getD_cons_succ]
  · refine pearson_self_one_and_neg_one.2 [0, 1] [1, 0] rfl (by norm_num) ?_ ?_
    · intro i hi
      fin_cases hi <;>
        norm_num [mean, List.getD_cons_zero, List.getD_cons_succ]
    · unfold devSumRange mean
      norm_num [Finset.sum_range_succ, Finset.sum_range_zero, List.getD_cons_zero,
        List.getD_cons_succ]

end IndoorSim
